import Mathlib

/-!
A shallow embedding of the cubedesu cube-simulation core (src/vec3.rs,
src/lib.rs, src/geometry_model.rs, src/facelet_model.rs) and proofs of the
spec's claims about it.

Machine integers: the Rust code stores coordinates in `i16`; within the
coordinate ranges the cube ever produces (|coordinate| ≤ N, with rotation
matrices whose entries lie in {-1,0,1}) no `i16` operation can overflow,
so coordinates are embedded as `Int`.  Rust's `%` on `i16` is the truncated
remainder, embedded as `Int.tmod`.  Strings are embedded as their UTF-8
byte lists so that the byte-index slicing of `Movement::from_str` (and its
panic on a non-char-boundary index) is modelled exactly.
-/

namespace Cubedesu

/-- src/vec3.rs `Vec3`: three `i16` components, embedded as `Int`. -/
structure Vec3 where
  x : Int
  y : Int
  z : Int
deriving DecidableEq, Repr

/-- src/lib.rs `pub type Point3 = vec3::Vec3`. -/
abbrev Point3 := Vec3

/-- src/vec3.rs `Vec3::dot`. -/
def Vec3.dot (lhs rhs : Vec3) : Int :=
  lhs.x * rhs.x + lhs.y * rhs.y + lhs.z * rhs.z

/-- src/vec3.rs `Matrix3`: rows r1, r2, r3. -/
structure Matrix3 where
  r1 : Vec3
  r2 : Vec3
  r3 : Vec3

/-- src/vec3.rs `impl Mul<Vec3> for Matrix3`. -/
def Matrix3.mulVec (m : Matrix3) (v : Vec3) : Vec3 :=
  Vec3.mk (Vec3.dot m.r1 v) (Vec3.dot m.r2 v) (Vec3.dot m.r3 v)

/-- src/vec3.rs `Axis`. -/
inductive Axis
  | X
  | Y
  | Z
deriving DecidableEq, Repr

/-- src/vec3.rs `cos_vals = [1, 0, -1, 0]`. -/
def cosVals : List Int := [1, 0, -1, 0]

/-- src/vec3.rs `sin_vals = [0, 1, 0, -1]`. -/
def sinVals : List Int := [0, 1, 0, -1]

/-- src/vec3.rs `Vec3::rotate_around_axis`.  Rust `%` on a signed integer is
the truncated remainder, so it is embedded with `Int.tmod`. -/
def Vec3.rotate_around_axis (v : Vec3) (axis : Axis) (n_turns : Int) : Vec3 :=
  if n_turns = 0 then v
  else
    let n1 := Int.tmod n_turns 4
    let n2 := -n1
    let n3 := if n2 < 0 then n2 + 4 else n2
    let c := cosVals.getD n3.toNat 0
    let s := sinVals.getD n3.toNat 0
    let rot_x := Matrix3.mk (Vec3.mk 1 0 0) (Vec3.mk 0 c (-s)) (Vec3.mk 0 s c)
    let rot_y := Matrix3.mk (Vec3.mk c 0 s) (Vec3.mk 0 1 0) (Vec3.mk (-s) 0 c)
    let rot_z := Matrix3.mk (Vec3.mk c (-s) 0) (Vec3.mk s c 0) (Vec3.mk 0 0 1)
    (match axis with
      | Axis.X => rot_x
      | Axis.Y => rot_y
      | Axis.Z => rot_z).mulVec v

/-- src/lib.rs `Face` (the sentinel `X` marks a non-surface position). -/
inductive Face
  | U
  | L
  | F
  | R
  | B
  | D
  | X
deriving DecidableEq, Repr

/-- src/lib.rs `Move`: the 18 move variants. -/
inductive Move
  | U
  | Uw
  | L
  | Lw
  | F
  | Fw
  | R
  | Rw
  | B
  | Bw
  | D
  | Dw
  | E
  | M
  | S
  | X
  | Y
  | Z
deriving DecidableEq, Repr

/-- src/lib.rs `Turn`. -/
inductive Turn
  | Single
  | Double
  | Inverse
deriving DecidableEq, Repr

/-- The value of `turn as i16` in Rust: `Single = 1`, so `Double = 2`,
`Inverse = 3`. -/
def Turn.toInt : Turn → Int
  | Turn.Single => 1
  | Turn.Double => 2
  | Turn.Inverse => 3

/-- src/lib.rs `Movement(Move, Turn)`. -/
structure Movement where
  move : Move
  turn : Turn
deriving DecidableEq, Repr

/-- src/lib.rs `ORDERED_FACES`. -/
def ORDERED_FACES : List Face := [Face.U, Face.R, Face.F, Face.D, Face.L, Face.B]

/-- src/lib.rs `STICKERS_PER_FACE`. -/
def STICKERS_PER_FACE : Nat := 9

/-- src/geometry_model.rs `Sticker`. -/
structure Sticker where
  initial : Point3
  current : Point3
deriving DecidableEq, Repr

/-- src/geometry_model.rs `Sticker::new`. -/
def Sticker.new (initial current : Point3) : Sticker := Sticker.mk initial current

/-- src/geometry_model.rs `Sticker::from_point`. -/
def Sticker.from_point (point : Point3) : Sticker := Sticker.new point point

/-- src/geometry_model.rs `GMove`. -/
structure GMove where
  movement : Movement
  axis : Axis
  is_clockwise : Bool
  predicate : Point3 → Bool

/-- src/geometry_model.rs `Sticker::apply_gmove`. -/
def Sticker.apply_gmove (sticker : Sticker) (gmove : GMove) : Sticker :=
  if gmove.predicate sticker.current then
    let turns := if gmove.is_clockwise then gmove.movement.turn.toInt
                 else -gmove.movement.turn.toInt
    Sticker.mk sticker.initial
      (Vec3.rotate_around_axis sticker.current gmove.axis turns)
  else sticker

/-- src/geometry_model.rs `GCube`: the size together with the sticker
collection (the const-generic `N` of the source is carried as a field, as
the later runtime-sized generation used by main.rs does). -/
structure GCube where
  size : Nat
  stickers : List Sticker
deriving DecidableEq, Repr

/-- src/geometry_model.rs `GCube::range`: facelet center coordinates
`-N+1, -N+3, …, N-1` along an axis. -/
def GCube.range (N : Nat) : List Int :=
  (List.range N).map (fun i : Nat => -(N : Int) + 1 + 2 * (i : Int))

/-- src/geometry_model.rs `GCube::new`: the solved cube. -/
def GCube.new (N : Nat) : GCube :=
  let n : Int := (N : Int)
  GCube.mk N <|
    ([-n, n]).flatMap fun face =>
      (GCube.range N).flatMap fun coord1 =>
        (GCube.range N).flatMap fun coord2 =>
          [Sticker.from_point (Vec3.mk face coord1 coord2),
           Sticker.from_point (Vec3.mk coord1 face coord2),
           Sticker.from_point (Vec3.mk coord1 coord2 face)]

/-- src/geometry_model.rs `GCube::create_gmove` (`N` is the cube size). -/
def GCube.create_gmove (N : Nat) (movement : Movement) : GMove :=
  match movement.move with
  | Move.U =>
      GMove.mk movement Axis.Y true (fun pos => decide (pos.y ≥ (N : Int) - 2))
  | Move.Uw =>
      GMove.mk movement Axis.Y true (fun pos => decide (pos.y ≥ (N : Int) - 2 * 2))
  | Move.L =>
      GMove.mk movement Axis.X false (fun pos => decide (pos.x ≤ -(N : Int) + 2))
  | Move.Lw =>
      GMove.mk movement Axis.X false (fun pos => decide (pos.x ≤ -(N : Int) + 2 * 2))
  | Move.F =>
      GMove.mk movement Axis.Z true (fun pos => decide (pos.z ≥ (N : Int) - 2))
  | Move.Fw =>
      GMove.mk movement Axis.Z true (fun pos => decide (pos.z ≥ (N : Int) - 2 * 2))
  | Move.R =>
      GMove.mk movement Axis.X true (fun pos => decide (pos.x ≥ (N : Int) - 2))
  | Move.Rw =>
      GMove.mk movement Axis.X true (fun pos => decide (pos.x ≥ (N : Int) - 2 * 2))
  | Move.B =>
      GMove.mk movement Axis.Z false (fun pos => decide (pos.z ≤ -(N : Int) + 2))
  | Move.Bw =>
      GMove.mk movement Axis.Z false (fun pos => decide (pos.z ≤ -(N : Int) + 2 * 2))
  | Move.D =>
      GMove.mk movement Axis.Y false (fun pos => decide (pos.y ≤ -(N : Int) + 2))
  | Move.Dw =>
      GMove.mk movement Axis.Y false (fun pos => decide (pos.y ≤ -(N : Int) + 2 * 2))
  | Move.E =>
      GMove.mk movement Axis.Y false (fun pos => decide (pos.y = 0))
  | Move.M =>
      GMove.mk movement Axis.X false (fun pos => decide (pos.x = 0))
  | Move.S =>
      GMove.mk movement Axis.Z true (fun pos => decide (pos.z = 0))
  | Move.X => GMove.mk movement Axis.X true (fun _ => true)
  | Move.Y => GMove.mk movement Axis.Y true (fun _ => true)
  | Move.Z => GMove.mk movement Axis.Z true (fun _ => true)

/-- src/geometry_model.rs `GCube::create_gmoves`. -/
def GCube.create_gmoves (N : Nat) (movements : List Movement) : List GMove :=
  movements.map (GCube.create_gmove N)

/-- src/geometry_model.rs `GCube::apply_gmove`: apply to every sticker. -/
def GCube.apply_gmove (c : GCube) (gmove : GMove) : GCube :=
  GCube.mk c.size (c.stickers.map (fun s => Sticker.apply_gmove s gmove))

/-- src/geometry_model.rs `GCube::apply_gmoves`. -/
def GCube.apply_gmoves (c : GCube) (gmoves : List GMove) : GCube :=
  gmoves.foldl GCube.apply_gmove c

/-- src/geometry_model.rs `GCube::apply_movement`. -/
def GCube.apply_movement (c : GCube) (movement : Movement) : GCube :=
  c.apply_gmoves [GCube.create_gmove c.size movement]

/-- src/geometry_model.rs `GCube::apply_movements`. -/
def GCube.apply_movements (c : GCube) (movements : List Movement) : GCube :=
  c.apply_gmoves (GCube.create_gmoves c.size movements)

/-- src/geometry_model.rs `GCube::get_face`. -/
def GCube.get_face (c : GCube) (pos : Point3) : Face :=
  let n : Int := (c.size : Int)
  if pos.x = n then Face.R
  else if pos.x = -n then Face.L
  else if pos.y = n then Face.U
  else if pos.y = -n then Face.D
  else if pos.z = n then Face.F
  else if pos.z = -n then Face.B
  else Face.X

/-- The comparator of the `sort_by` in `GCube::to_facelet_model`: `a` is
`Less` than `b` iff `a.current.y > b.current.y` or (equal `y` and
`a.current.x < b.current.x`). -/
def faceletLt (a b : Sticker) : Bool :=
  decide (a.current.y > b.current.y)
    || (decide (a.current.y = b.current.y) && decide (a.current.x < b.current.x))

/-- Insert into a sorted list, placing `a` before the first element it
compares `Less` than (the order `sort_by` produces for a strict total
comparator). -/
def insertSorted (a : Sticker) : List Sticker → List Sticker
  | [] => [a]
  | b :: l => if faceletLt a b then a :: b :: l else b :: insertSorted a l

/-- The `stickers.sort_by(...)` call of `GCube::to_facelet_model`. -/
def sortStickers (l : List Sticker) : List Sticker :=
  l.foldr insertSorted []

/-- One iteration of the face loop of `GCube::to_facelet_model`: rotate a
throwaway copy bringing `face` to the front, read off the 9 front-face
stickers in sorted order; `none` models the `try_into().unwrap()` panic
when the filtered list does not have exactly `STICKERS_PER_FACE` stickers. -/
def GCube.faceBlock (c : GCube) (face : Face) : Option (List Face) :=
  let c2 := match face with
    | Face.U => c.apply_movement (Movement.mk Move.X Turn.Inverse)
    | Face.R => c.apply_movement (Movement.mk Move.Y Turn.Single)
    | Face.L => c.apply_movement (Movement.mk Move.Y Turn.Inverse)
    | Face.B => c.apply_movement (Movement.mk Move.Y Turn.Double)
    | Face.D => c.apply_movement (Movement.mk Move.X Turn.Single)
    | _ => c
  let v := c2.stickers.filter (fun s => c.get_face s.current == Face.F)
  if v.length = STICKERS_PER_FACE then
    some ((sortStickers v).map (fun s => c.get_face s.initial))
  else none

/-- The face loop of `GCube::to_facelet_model`, writing each face's block of
`STICKERS_PER_FACE` facelets in sequence. -/
def GCube.collectBlocks (c : GCube) : List Face → Option (List Face)
  | [] => some []
  | f :: fs =>
      match c.faceBlock f, c.collectBlocks fs with
      | some b, some rest => some (b ++ rest)
      | _, _ => none

/-- src/geometry_model.rs `GCube::to_facelet_model`; `none` models the
panics of its `unwrap` calls. -/
def GCube.to_facelet_model (c : GCube) : Option (List Face) :=
  c.collectBlocks ORDERED_FACES

/-- src/facelet_model.rs `FaceletModel::new`: the solved facelet layout. -/
def FaceletModel.new (N : Nat) : List Face :=
  ORDERED_FACES.flatMap (fun face => List.replicate (N * N) face)

/-- Modelled from the spec: `grow` is called from main.rs but its definition
is not among the sources; per §4.4 it rebuilds the entire sticker collection
at size N+1, discarding all prior move history. -/
def GCube.grow (c : GCube) : GCube := GCube.new (c.size + 1)

/-- Modelled from the spec: `shrink` is called from main.rs but its
definition is not among the sources; per §4.4 it rebuilds the entire sticker
collection at size N-1, flooring at size 1. -/
def GCube.shrink (c : GCube) : GCube := GCube.new (max 1 (c.size - 1))

/-! ## Move-notation parsing (src/lib.rs)

Rust `&str` values are embedded as their UTF-8 byte lists (`List Nat`),
because `Movement::from_str` works at the byte level: it inspects
`s.as_bytes()[1]` and slices `&s[0..i]`, which panics when `i` is not a
char boundary. -/

/-- UTF-8 encoding of one scalar value, as `Nat` bytes. -/
def utf8Bytes (c : Char) : List Nat :=
  let n := c.toNat
  if n < 128 then [n]
  else if n < 2048 then [192 + n / 64, 128 + n % 64]
  else if n < 65536 then [224 + n / 4096, 128 + n / 64 % 64, 128 + n % 64]
  else [240 + n / 262144, 128 + n / 4096 % 64, 128 + n / 64 % 64, 128 + n % 64]

/-- The UTF-8 bytes of a string (Rust `str::as_bytes`). -/
def strBytes (s : String) : List Nat := s.data.flatMap utf8Bytes

/-- Rust `u8::is_ascii_alphabetic`. -/
def isAsciiAlphabetic (b : Nat) : Bool :=
  (65 ≤ b && b ≤ 90) || (97 ≤ b && b ≤ 122)

/-- Rust `str::is_char_boundary` on the byte list: index 0 or the length is
a boundary, otherwise the byte there must not be a UTF-8 continuation
byte. -/
def isCharBoundary (bs : List Nat) (i : Nat) : Bool :=
  if i = 0 then true
  else
    match bs.get? i with
    | some b => decide (b < 128) || decide (192 ≤ b)
    | none => decide (i = bs.length)

/-- src/lib.rs `ParseMovementError`, with the `message` field represented
structurally: `empty` is "Empty movement.", `badMove s` is "Failed to parse
Move part in s", `badTurn s` is "Failed to parse Turn part in s". -/
inductive ParseMovementError
  | empty
  | badMove (s : List Nat)
  | badTurn (s : List Nat)
deriving DecidableEq, Repr

/-- Outcome of a Rust function that may panic: `panic`, `err`, or `ok`. -/
inductive RustResult (α : Type)
  | panic
  | err (e : ParseMovementError)
  | ok (a : α)
deriving DecidableEq, Repr

/-- Whether a `RustResult` is `ok`. -/
def RustResult.isOk {α : Type} : RustResult α → Bool
  | RustResult.ok _ => true
  | _ => false

/-- The strum-derived `Move::from_str`: each variant is matched by its
`serialize` strings (variant name by default; lowercase shorthand for wide
moves; `X`/`Y`/`Z` are ASCII-case-insensitive), here as byte lists. -/
def moveFromBytes (bs : List Nat) : Option Move :=
  match bs with
  | [85] => some Move.U
  | [85, 119] | [117] => some Move.Uw
  | [76] => some Move.L
  | [76, 119] | [108] => some Move.Lw
  | [70] => some Move.F
  | [70, 119] | [102] => some Move.Fw
  | [82] => some Move.R
  | [82, 119] | [114] => some Move.Rw
  | [66] => some Move.B
  | [66, 119] | [98] => some Move.Bw
  | [68] => some Move.D
  | [68, 119] | [100] => some Move.Dw
  | [69] => some Move.E
  | [77] => some Move.M
  | [83] => some Move.S
  | [88] | [120] => some Move.X
  | [89] | [121] => some Move.Y
  | [90] | [122] => some Move.Z
  | _ => none

/-- The strum-derived `Turn::from_str`: `""` is `Single`, `"2"` is `Double`,
`"'"` is `Inverse`. -/
def turnFromBytes : List Nat → Option Turn
  | [] => some Turn.Single
  | [50] => some Turn.Double
  | [39] => some Turn.Inverse
  | _ => none

/-- The index where the `Turn` part is expected to start in
`Movement::from_str`: 2 when the second byte is ASCII-alphabetic, else 1. -/
def turnStartIndex (bs : List Nat) : Nat :=
  if bs.length > 1 && isAsciiAlphabetic (bs.getD 1 0) then 2 else 1

/-- src/lib.rs `Movement::from_str` (`impl FromStr for Movement`), on the
UTF-8 bytes of the input.  `panic` models the Rust panic raised by
`&s[0..turn_start_index]` when that index is not a char boundary. -/
def Movement.from_str (bs : List Nat) : RustResult Movement :=
  if bs = [] then RustResult.err ParseMovementError.empty
  else
    let i := turnStartIndex bs
    if isCharBoundary bs i then
      match moveFromBytes (bs.take i) with
      | none => RustResult.err (ParseMovementError.badMove bs)
      | some mv =>
          match turnFromBytes (bs.drop i) with
          | none => RustResult.err (ParseMovementError.badTurn bs)
          | some t => RustResult.ok (Movement.mk mv t)
    else RustResult.panic

/-- The strum-derived `Display` for `Move`: the longest `serialize` string
of each variant. -/
def Move.toBytes : Move → List Nat
  | Move.U => [85]
  | Move.Uw => [85, 119]
  | Move.L => [76]
  | Move.Lw => [76, 119]
  | Move.F => [70]
  | Move.Fw => [70, 119]
  | Move.R => [82]
  | Move.Rw => [82, 119]
  | Move.B => [66]
  | Move.Bw => [66, 119]
  | Move.D => [68]
  | Move.Dw => [68, 119]
  | Move.E => [69]
  | Move.M => [77]
  | Move.S => [83]
  | Move.X => [88]
  | Move.Y => [89]
  | Move.Z => [90]

/-- The strum-derived `Display` for `Turn`. -/
def Turn.toBytes : Turn → List Nat
  | Turn.Single => []
  | Turn.Double => [50]
  | Turn.Inverse => [39]

/-- `format!("{}{}", m, t)`: the textual notation of a `Movement`. -/
def Movement.format (m : Movement) : List Nat :=
  m.move.toBytes ++ m.turn.toBytes

/-- Whether a byte is ASCII whitespace (the whitespace alphabet of move
notation; Rust `split_whitespace` splits on Unicode whitespace, which
agrees with this on ASCII input). -/
def isWhitespaceByte (b : Nat) : Bool :=
  b == 32 || (9 ≤ b && b ≤ 13)

/-- Helper of `splitWhitespaceBytes`: `acc` holds the bytes of the current
token in reverse. -/
def splitWhitespaceGo : List Nat → List Nat → List (List Nat)
  | [], acc => if acc.isEmpty then [] else [acc.reverse]
  | b :: bs, acc =>
      if isWhitespaceByte b then
        if acc.isEmpty then splitWhitespaceGo bs []
        else acc.reverse :: splitWhitespaceGo bs []
      else splitWhitespaceGo bs (b :: acc)

/-- Rust `str::split_whitespace` on bytes: maximal runs of
non-whitespace. -/
def splitWhitespaceBytes (bs : List Nat) : List (List Nat) :=
  splitWhitespaceGo bs []

/-- Fold of `Movement::from_str` over the tokens, short-circuiting at the
first non-`ok` outcome (`collect::<Result<Vec<_>, _>>`). -/
def collectMovements : List (List Nat) → RustResult (List Movement)
  | [] => RustResult.ok []
  | t :: ts =>
      match Movement.from_str t with
      | RustResult.panic => RustResult.panic
      | RustResult.err e => RustResult.err e
      | RustResult.ok m =>
          match collectMovements ts with
          | RustResult.panic => RustResult.panic
          | RustResult.err e => RustResult.err e
          | RustResult.ok ms => RustResult.ok (m :: ms)

/-- src/lib.rs `scramble_to_movements`. -/
def scramble_to_movements (bs : List Nat) : RustResult (List Movement) :=
  collectMovements (splitWhitespaceBytes bs)

/-! ## Rotation normalization

`rotate_around_axis` always rotates by `rotIdx n ∈ {0,1,2,3}` quarter
turns counter-clockwise in matrix convention; `rotCore` lists the twelve
resulting signed coordinate permutations. -/

/-- The normalized table index computed inside `rotate_around_axis`. -/
def rotIdx (n : Int) : Nat :=
  (if -Int.tmod n 4 < 0 then -Int.tmod n 4 + 4 else -Int.tmod n 4).toNat

/-- The signed coordinate permutation performed by `rotate_around_axis`
at table index `j` (identity for `j = 0` and out-of-range `j`). -/
def rotCore (ax : Axis) (j : Nat) (p : Point3) : Point3 :=
  match ax, j with
  | Axis.X, 1 => Vec3.mk p.x (-p.z) p.y
  | Axis.X, 2 => Vec3.mk p.x (-p.y) (-p.z)
  | Axis.X, 3 => Vec3.mk p.x p.z (-p.y)
  | Axis.Y, 1 => Vec3.mk p.z p.y (-p.x)
  | Axis.Y, 2 => Vec3.mk (-p.x) p.y (-p.z)
  | Axis.Y, 3 => Vec3.mk (-p.z) p.y p.x
  | Axis.Z, 1 => Vec3.mk (-p.y) p.x p.z
  | Axis.Z, 2 => Vec3.mk (-p.x) (-p.y) p.z
  | Axis.Z, 3 => Vec3.mk p.y (-p.x) p.z
  | _, _ => p

/-- The coordinate of `p` along `ax`. -/
def axisCoord : Axis → Point3 → Int
  | Axis.X, p => p.x
  | Axis.Y, p => p.y
  | Axis.Z, p => p.z

lemma neg_tmod_eq (a b : Int) : Int.tmod (-a) b = -Int.tmod a b := by
  rw [Int.tmod_def, Int.tmod_def, Int.neg_tdiv]
  ring

lemma tmod_four_bounds (n : Int) : -4 < Int.tmod n 4 ∧ Int.tmod n 4 < 4 := by
  refine ⟨?_, Int.tmod_lt_of_pos n (by norm_num)⟩
  rcases le_or_lt 0 n with h | h
  · have := Int.tmod_nonneg 4 h
    omega
  · have h1 : Int.tmod (-n) 4 < 4 := Int.tmod_lt_of_pos (-n) (by norm_num)
    rw [neg_tmod_eq] at h1
    omega

lemma rotIdx_lt (n : Int) : rotIdx n < 4 := by
  have h := tmod_four_bounds n
  unfold rotIdx
  split <;> omega

lemma rotate_eq_matrix (v : Vec3) (ax : Axis) (n : Int) (h : n ≠ 0) :
    Vec3.rotate_around_axis v ax n =
      (let c := cosVals.getD (rotIdx n) 0
       let s := sinVals.getD (rotIdx n) 0
       match ax with
       | Axis.X => Matrix3.mk (Vec3.mk 1 0 0) (Vec3.mk 0 c (-s)) (Vec3.mk 0 s c)
       | Axis.Y => Matrix3.mk (Vec3.mk c 0 s) (Vec3.mk 0 1 0) (Vec3.mk (-s) 0 c)
       | Axis.Z =>
           Matrix3.mk (Vec3.mk c (-s) 0) (Vec3.mk s c 0) (Vec3.mk 0 0 1)).mulVec v := by
  unfold Vec3.rotate_around_axis rotIdx
  rw [if_neg h]

lemma matrix_eq_rotCore (ax : Axis) (j : Nat) (hj : j < 4) (v : Vec3) :
    (let c := cosVals.getD j 0
     let s := sinVals.getD j 0
     match ax with
     | Axis.X => Matrix3.mk (Vec3.mk 1 0 0) (Vec3.mk 0 c (-s)) (Vec3.mk 0 s c)
     | Axis.Y => Matrix3.mk (Vec3.mk c 0 s) (Vec3.mk 0 1 0) (Vec3.mk (-s) 0 c)
     | Axis.Z =>
         Matrix3.mk (Vec3.mk c (-s) 0) (Vec3.mk s c 0) (Vec3.mk 0 0 1)).mulVec v
      = rotCore ax j v := by
  interval_cases j <;> cases ax <;>
    simp [cosVals, sinVals, Matrix3.mulVec, Vec3.dot, rotCore]

/-- `rotate_around_axis _ ax n` is `rotCore ax j` for a single `j < 4`
depending only on `ax` and `n`. -/
lemma rotate_eq_rotCore (ax : Axis) (n : Int) :
    ∃ j, j < 4 ∧ ∀ v, Vec3.rotate_around_axis v ax n = rotCore ax j v := by
  by_cases h : n = 0
  · refine ⟨0, by omega, fun v => ?_⟩
    subst h
    cases ax <;> simp [Vec3.rotate_around_axis, rotCore]
  · exact ⟨rotIdx n, rotIdx_lt n,
      fun v => (rotate_eq_matrix v ax n h).trans (matrix_eq_rotCore ax (rotIdx n) (rotIdx_lt n) v)⟩

lemma rotCore_leftInverse (ax : Axis) (j : Nat) (hj : j < 4) :
    ∃ j', ∀ p, rotCore ax j' (rotCore ax j p) = p := by
  interval_cases j
  · exact ⟨0, fun p => by cases ax <;> rfl⟩
  · exact ⟨3, fun p => by cases ax <;> simp [rotCore]⟩
  · exact ⟨2, fun p => by cases ax <;> simp [rotCore]⟩
  · exact ⟨1, fun p => by cases ax <;> simp [rotCore]⟩

lemma axisCoord_rotCore (ax : Axis) (j : Nat) (p : Point3) :
    axisCoord ax (rotCore ax j p) = axisCoord ax p := by
  cases ax <;> rcases j with _ | _ | _ | _ | j <;> rfl

/-! ## The surface lattice

`GCube::new` places stickers on the points with one coordinate `±N` and
the other two in `GCube::range N`; rotations permute this point set. -/

/-- `v` is an outer-face coordinate: `N` or `-N`. -/
def IsFaceCoord (N : Nat) (v : Int) : Prop := v = (N : Int) ∨ v = -(N : Int)

/-- `v` is a facelet center coordinate: a member of `GCube::range N`. -/
def InRange (N : Nat) (v : Int) : Prop := v ∈ GCube.range N

/-- `p` is a sticker position of the size-`N` cube: exactly one coordinate
on an outer face, the other two at facelet centers. -/
def OnSurf (N : Nat) (p : Point3) : Prop :=
  (IsFaceCoord N p.x ∧ InRange N p.y ∧ InRange N p.z)
    ∨ (InRange N p.x ∧ IsFaceCoord N p.y ∧ InRange N p.z)
    ∨ (InRange N p.x ∧ InRange N p.y ∧ IsFaceCoord N p.z)

lemma inRange_iff {N : Nat} {v : Int} :
    InRange N v ↔ ∃ i : Nat, i < N ∧ v = -(N : Int) + 1 + 2 * i := by
  unfold InRange GCube.range
  rw [List.mem_map]
  constructor
  · rintro ⟨i, hi, rfl⟩
    exact ⟨i, List.mem_range.1 hi, rfl⟩
  · rintro ⟨i, hi, rfl⟩
    exact ⟨i, List.mem_range.2 hi, rfl⟩

lemma range_bounds {N : Nat} {v : Int} (h : InRange N v) :
    -(N : Int) < v ∧ v < (N : Int) := by
  rcases inRange_iff.1 h with ⟨i, hi, rfl⟩
  omega

lemma inRange_neg {N : Nat} {v : Int} : InRange N (-v) ↔ InRange N v := by
  have aux : ∀ w : Int, InRange N w → InRange N (-w) := by
    intro w hw
    rcases inRange_iff.1 hw with ⟨i, hi, rfl⟩
    exact inRange_iff.2 ⟨N - 1 - i, by omega, by omega⟩
  exact ⟨fun h => by simpa using aux _ h, aux v⟩

lemma isFaceCoord_neg {N : Nat} {v : Int} : IsFaceCoord N (-v) ↔ IsFaceCoord N v := by
  unfold IsFaceCoord
  omega

lemma onSurf_rotCore {N : Nat} (ax : Axis) (j : Nat) {p : Point3} (h : OnSurf N p) :
    OnSurf N (rotCore ax j p) := by
  unfold OnSurf at h ⊢
  cases ax <;> rcases j with _ | _ | _ | _ | j <;>
    simp only [rotCore, inRange_neg, isFaceCoord_neg] at h ⊢ <;> tauto

/-- The current positions of a freshly solved size-`N` cube. -/
def solvedPos (N : Nat) : List Point3 := (GCube.new N).stickers.map Sticker.current

lemma solvedPos_eq (N : Nat) :
    solvedPos N =
      ([-(N : Int), (N : Int)]).flatMap fun face =>
        (GCube.range N).flatMap fun c1 =>
          (GCube.range N).flatMap fun c2 =>
            [Vec3.mk face c1 c2, Vec3.mk c1 face c2, Vec3.mk c1 c2 face] := by
  unfold solvedPos GCube.new
  simp [List.map_flatMap, Sticker.from_point, Sticker.new]

lemma mem_solvedPos_iff {N : Nat} {p : Point3} : p ∈ solvedPos N ↔ OnSurf N p := by
  rw [solvedPos_eq]
  simp only [List.mem_flatMap, List.mem_cons, List.not_mem_nil, or_false]
  constructor
  · rintro ⟨face, hface, c1, hc1, c2, hc2, hp⟩
    have hf : IsFaceCoord N face := by
      unfold IsFaceCoord
      tauto
    rcases hp with rfl | rfl | rfl
    · exact Or.inl ⟨hf, hc1, hc2⟩
    · exact Or.inr (Or.inl ⟨hc1, hf, hc2⟩)
    · exact Or.inr (Or.inr ⟨hc1, hc2, hf⟩)
  · intro h
    rcases h with ⟨hx, hy, hz⟩ | ⟨hx, hy, hz⟩ | ⟨hx, hy, hz⟩
    · rcases hx with hx | hx
      · exact ⟨p.x, Or.inr hx, p.y, hy, p.z, hz, Or.inl rfl⟩
      · exact ⟨p.x, Or.inl hx, p.y, hy, p.z, hz, Or.inl rfl⟩
    · rcases hy with hy | hy
      · exact ⟨p.y, Or.inr hy, p.x, hx, p.z, hz, Or.inr (Or.inl rfl)⟩
      · exact ⟨p.y, Or.inl hy, p.x, hx, p.z, hz, Or.inr (Or.inl rfl)⟩
    · rcases hz with hz | hz
      · exact ⟨p.z, Or.inr hz, p.x, hx, p.y, hy, Or.inr (Or.inr rfl)⟩
      · exact ⟨p.z, Or.inl hz, p.x, hx, p.y, hy, Or.inr (Or.inr rfl)⟩

lemma nodup_solvedPos (N : Nat) : (solvedPos N).Nodup := by
  rw [solvedPos_eq]
  have hrb : ∀ v : Int, v ∈ GCube.range N → ∃ i : Nat, i < N ∧ v = -(N : Int) + 1 + 2 * i :=
    fun v hv => inRange_iff.1 hv
  apply List.nodup_flatMap.2
  constructor
  · intro f hf
    have hf' : f = -(N : Int) ∨ f = (N : Int) := by simpa using hf
    apply List.nodup_flatMap.2
    constructor
    · intro c1 hc1
      obtain ⟨i1, hi1, hv1⟩ := hrb c1 hc1
      apply List.nodup_flatMap.2
      constructor
      · intro c2 hc2
        obtain ⟨i2, hi2, hv2⟩ := hrb c2 hc2
        simp only [List.nodup_cons, List.mem_cons, List.not_mem_nil, or_false,
          List.nodup_nil, and_true, true_and, not_false_eq_true, Vec3.mk.injEq, not_or]
        omega
      · unfold GCube.range
        rw [List.pairwise_map]
        refine List.Pairwise.imp ?_ (List.pairwise_lt_range N)
        intro a b hab
        intro q hq hq'
        simp only [List.mem_cons, List.not_mem_nil, or_false] at hq hq'
        rcases hq with rfl | rfl | rfl <;>
          rcases hq' with h | h | h <;>
          simp only [Vec3.mk.injEq] at h <;>
          omega
    · unfold GCube.range
      rw [List.pairwise_map]
      refine List.Pairwise.imp ?_ (List.pairwise_lt_range N)
      intro a b hab
      intro q hq hq'
      simp only [List.mem_flatMap, List.mem_cons, List.not_mem_nil, or_false] at hq hq'
      obtain ⟨c2, hc2, hqc⟩ := hq
      obtain ⟨d2, hd2, hqd⟩ := hq'
      obtain ⟨i2, hi2, hv2⟩ := hrb c2 hc2
      obtain ⟨j2, hj2, hw2⟩ := hrb d2 hd2
      rcases hqc with rfl | rfl | rfl <;>
        rcases hqd with h | h | h <;>
        simp only [Vec3.mk.injEq] at h <;>
        omega
  · simp only [List.pairwise_cons, List.mem_cons, List.not_mem_nil, or_false]
    refine ⟨?_, ?_, List.Pairwise.nil⟩
    swap
    · intro a' h
      exact h.elim
    rintro a' rfl
    intro q hq hq'
    simp only [List.mem_flatMap, List.mem_cons, List.not_mem_nil, or_false] at hq hq'
    obtain ⟨c1, hc1, c2, hc2, hqc⟩ := hq
    obtain ⟨d1, hd1, d2, hd2, hqd⟩ := hq'
    obtain ⟨i1, hi1, hv1⟩ := hrb c1 hc1
    obtain ⟨i2, hi2, hv2⟩ := hrb c2 hc2
    obtain ⟨j1, hj1, hw1⟩ := hrb d1 hd1
    obtain ⟨j2, hj2, hw2⟩ := hrb d2 hd2
    rcases hqc with rfl | rfl | rfl <;>
      rcases hqd with h | h | h <;>
      simp only [Vec3.mk.injEq] at h <;>
      omega

/-! ## Moves permute the surface lattice -/

/-- The action of a `GMove` on a sticker's current position. -/
def posFun (g : GMove) : Point3 → Point3 := fun p =>
  if g.predicate p then
    Vec3.rotate_around_axis p g.axis
      (if g.is_clockwise then g.movement.turn.toInt else -g.movement.turn.toInt)
  else p

lemma apply_gmove_current (s : Sticker) (g : GMove) :
    (Sticker.apply_gmove s g).current = posFun g s.current := by
  unfold Sticker.apply_gmove posFun
  split <;> rfl

lemma apply_gmove_initial (s : Sticker) (g : GMove) :
    (Sticker.apply_gmove s g).initial = s.initial := by
  unfold Sticker.apply_gmove
  split <;> rfl

lemma piecewise_inj {pred : Point3 → Bool} {r : Point3 → Point3}
    (rInv : Point3 → Point3)
    (hInv : ∀ p, rInv (r p) = p)
    (hpred : ∀ p, pred (r p) = pred p) :
    Function.Injective (fun p => if pred p then r p else p) := by
  intro p q h
  dsimp only at h
  by_cases hp : pred p = true
  · by_cases hq : pred q = true
    · rw [if_pos hp, if_pos hq] at h
      have h2 := congrArg rInv h
      rwa [hInv, hInv] at h2
    · rw [if_pos hp, if_neg hq] at h
      have h3 : pred q = true := by rw [← h, hpred p]; exact hp
      exact absurd h3 hq
  · by_cases hq : pred q = true
    · rw [if_neg hp, if_pos hq] at h
      have h3 : pred p = true := by rw [h, hpred q]; exact hq
      exact absurd h3 hp
    · rw [if_neg hp, if_neg hq] at h
      exact h

lemma create_gmove_pred (N : Nat) (m : Movement) :
    ∃ f : Int → Bool, ∀ p,
      (GCube.create_gmove N m).predicate p
        = f (axisCoord (GCube.create_gmove N m).axis p) := by
  obtain ⟨mv, t⟩ := m
  cases mv
  case U => exact ⟨fun v => decide (v ≥ (N : Int) - 2), fun p => rfl⟩
  case Uw => exact ⟨fun v => decide (v ≥ (N : Int) - 2 * 2), fun p => rfl⟩
  case L => exact ⟨fun v => decide (v ≤ -(N : Int) + 2), fun p => rfl⟩
  case Lw => exact ⟨fun v => decide (v ≤ -(N : Int) + 2 * 2), fun p => rfl⟩
  case F => exact ⟨fun v => decide (v ≥ (N : Int) - 2), fun p => rfl⟩
  case Fw => exact ⟨fun v => decide (v ≥ (N : Int) - 2 * 2), fun p => rfl⟩
  case R => exact ⟨fun v => decide (v ≥ (N : Int) - 2), fun p => rfl⟩
  case Rw => exact ⟨fun v => decide (v ≥ (N : Int) - 2 * 2), fun p => rfl⟩
  case B => exact ⟨fun v => decide (v ≤ -(N : Int) + 2), fun p => rfl⟩
  case Bw => exact ⟨fun v => decide (v ≤ -(N : Int) + 2 * 2), fun p => rfl⟩
  case D => exact ⟨fun v => decide (v ≤ -(N : Int) + 2), fun p => rfl⟩
  case Dw => exact ⟨fun v => decide (v ≤ -(N : Int) + 2 * 2), fun p => rfl⟩
  case E => exact ⟨fun v => decide (v = 0), fun p => rfl⟩
  case M => exact ⟨fun v => decide (v = 0), fun p => rfl⟩
  case S => exact ⟨fun v => decide (v = 0), fun p => rfl⟩
  case X => exact ⟨fun _ => true, fun p => rfl⟩
  case Y => exact ⟨fun _ => true, fun p => rfl⟩
  case Z => exact ⟨fun _ => true, fun p => rfl⟩

lemma posFun_inj (N : Nat) (m : Movement) :
    Function.Injective (posFun (GCube.create_gmove N m)) := by
  obtain ⟨j, hj, hrot⟩ :=
    rotate_eq_rotCore (GCube.create_gmove N m).axis
      (if (GCube.create_gmove N m).is_clockwise
        then (GCube.create_gmove N m).movement.turn.toInt
        else -(GCube.create_gmove N m).movement.turn.toInt)
  obtain ⟨j', hj'⟩ := rotCore_leftInverse (GCube.create_gmove N m).axis j hj
  obtain ⟨f, hf⟩ := create_gmove_pred N m
  have heq : posFun (GCube.create_gmove N m)
      = fun p => if (GCube.create_gmove N m).predicate p
          then rotCore (GCube.create_gmove N m).axis j p else p := by
    funext p
    unfold posFun
    rw [hrot p]
  rw [heq]
  refine piecewise_inj (fun p => rotCore (GCube.create_gmove N m).axis j' p)
    (fun p => hj' p) ?_
  intro p
  rw [hf, hf, axisCoord_rotCore]

lemma posFun_mapsTo (N : Nat) (m : Movement) {p : Point3} (hp : OnSurf N p) :
    OnSurf N (posFun (GCube.create_gmove N m) p) := by
  unfold posFun
  split
  · obtain ⟨j, hj, hrot⟩ :=
      rotate_eq_rotCore (GCube.create_gmove N m).axis
        (if (GCube.create_gmove N m).is_clockwise
          then (GCube.create_gmove N m).movement.turn.toInt
          else -(GCube.create_gmove N m).movement.turn.toInt)
    rw [hrot]
    exact onSurf_rotCore _ _ hp
  · exact hp

lemma multiset_map_eq_self {m : Multiset Point3} {g : Point3 → Point3}
    (hnd : m.Nodup) (hinj : Function.Injective g) (hmem : ∀ x ∈ m, g x ∈ m) :
    m.map g = m := by
  have h1 : (m.map g).Nodup := hnd.map hinj
  have hsub : m.map g ⊆ m := by
    intro y hy
    rcases Multiset.mem_map.1 hy with ⟨x, hx, rfl⟩
    exact hmem x hx
  have hle : m.map g ≤ m := (Multiset.le_iff_subset h1).2 hsub
  exact Multiset.eq_of_le_of_card_le hle (by simp)

lemma posFun_fixes_solved (N : Nat) (m : Movement) :
    (solvedPos N : Multiset Point3).map (posFun (GCube.create_gmove N m))
      = (solvedPos N : Multiset Point3) := by
  refine multiset_map_eq_self (Multiset.coe_nodup.2 (nodup_solvedPos N)) (posFun_inj N m) ?_
  intro x hx
  rw [Multiset.mem_coe, mem_solvedPos_iff] at hx ⊢
  exact posFun_mapsTo N m hx

lemma size_apply_gmoves (c : GCube) (gs : List GMove) :
    (c.apply_gmoves gs).size = c.size := by
  induction gs generalizing c with
  | nil => rfl
  | cons g gs ih => exact (ih (c.apply_gmove g)).trans rfl

lemma currents_apply_gmove (c : GCube) (g : GMove) :
    (c.apply_gmove g).stickers.map Sticker.current
      = (c.stickers.map Sticker.current).map (posFun g) := by
  unfold GCube.apply_gmove
  simp only [List.map_map]
  exact List.map_congr_left (fun s _ => apply_gmove_current s g)

lemma invariant_apply_gmoves (N : Nat) :
    ∀ (gs : List GMove) (c : GCube), (∀ g ∈ gs, ∃ m, g = GCube.create_gmove N m) →
      ((c.stickers.map Sticker.current : List Point3) : Multiset Point3) = ↑(solvedPos N) →
      (((c.apply_gmoves gs).stickers.map Sticker.current : List Point3) : Multiset Point3)
        = ↑(solvedPos N) := by
  intro gs
  induction gs with
  | nil => exact fun c _ h => h
  | cons g gs ih =>
      intro c hmem h
      obtain ⟨m, rfl⟩ := hmem g (by simp)
      refine ih (c.apply_gmove _) (fun g' hg' => hmem g' (by simp [hg'])) ?_
      rw [currents_apply_gmove, ← Multiset.map_coe, h]
      exact posFun_fixes_solved N m

/-- After any move sequence the multiset of current positions equals that
of the freshly solved cube. -/
lemma reachable_multiset (N : Nat) (ms : List Movement) :
    ((((GCube.new N).apply_movements ms).stickers.map Sticker.current : List Point3)
        : Multiset Point3)
      = ↑(solvedPos N) := by
  unfold GCube.apply_movements GCube.create_gmoves
  refine invariant_apply_gmoves N _ (GCube.new N) ?_ rfl
  intro g hg
  rcases List.mem_map.1 hg with ⟨m, _, rfl⟩
  exact ⟨m, rfl⟩

lemma size_reachable (N : Nat) (ms : List Movement) :
    ((GCube.new N).apply_movements ms).size = N :=
  size_apply_gmoves (GCube.new N) _

/-! ## Claims -/

/-- C1: for every `Move m`, starting from a solved size-3 cube, applying
`Movement(m, Single)` then `Movement(m, Inverse)` returns every sticker's
current position to its pre-move value; applying `Movement(m, Double)`
twice is the identity on the cube state; and applying `Movement(m, Single)`
four times is the identity. -/
theorem c1_move_group_laws : ∀ m : Move,
    (GCube.new 3).apply_movements
        [Movement.mk m Turn.Single, Movement.mk m Turn.Inverse] = GCube.new 3
    ∧ (GCube.new 3).apply_movements
        [Movement.mk m Turn.Double, Movement.mk m Turn.Double] = GCube.new 3
    ∧ (GCube.new 3).apply_movements
        [Movement.mk m Turn.Single, Movement.mk m Turn.Single,
         Movement.mk m Turn.Single, Movement.mk m Turn.Single] = GCube.new 3 := by
  intro m
  cases m <;> exact ⟨by decide, by decide, by decide⟩

/-- C2: after any sequence of movements applied to `GCube::new N`, the
multiset of current positions of all stickers equals the multiset of
current positions of a freshly solved cube of the same size. -/
theorem c2_permutation_closure (N : Nat) (ms : List Movement) :
    ((((GCube.new N).apply_movements ms).stickers.map Sticker.current : List Point3)
        : Multiset Point3)
      = (((GCube.new N).stickers.map Sticker.current : List Point3) : Multiset Point3) :=
  reachable_multiset N ms

/-- C3: the facelet projection of a freshly constructed solved size-3 cube
is exactly 9 U's, then 9 R's, then 9 F's, then 9 D's, then 9 L's, then
9 B's, concatenated in that order. -/
theorem c3_solved_facelet_baseline :
    (GCube.new 3).to_facelet_model
      = some (List.replicate 9 Face.U ++ List.replicate 9 Face.R
          ++ List.replicate 9 Face.F ++ List.replicate 9 Face.D
          ++ List.replicate 9 Face.L ++ List.replicate 9 Face.B) := by
  decide

/-- C4: for every pair of the 18 `Move` variants and 3 `Turn` variants,
formatting the movement to its textual notation and parsing that text back
succeeds and returns exactly the same movement. -/
theorem c4_format_parse_roundtrip (m : Move) (t : Turn) :
    Movement.from_str (Movement.format (Movement.mk m t))
      = RustResult.ok (Movement.mk m t) := by
  cases m <;> cases t <;> rfl

lemma collect_cons_panic {t : List Nat} {ts : List (List Nat)}
    (h : Movement.from_str t = RustResult.panic) :
    collectMovements (t :: ts) = RustResult.panic := by
  unfold collectMovements
  rw [h]

lemma collect_cons_err {t : List Nat} {ts : List (List Nat)} {e : ParseMovementError}
    (h : Movement.from_str t = RustResult.err e) :
    collectMovements (t :: ts) = RustResult.err e := by
  unfold collectMovements
  rw [h]

lemma collect_cons_ok {t : List Nat} {ts : List (List Nat)} {m : Movement}
    (h : Movement.from_str t = RustResult.ok m) :
    collectMovements (t :: ts)
      = match collectMovements ts with
        | RustResult.panic => RustResult.panic
        | RustResult.err e => RustResult.err e
        | RustResult.ok ms => RustResult.ok (m :: ms) := by
  conv_lhs => unfold collectMovements
  rw [h]

lemma collect_ok_iff (ts : List (List Nat)) :
    (∃ l, collectMovements ts = RustResult.ok l)
      ↔ ∀ t ∈ ts, (Movement.from_str t).isOk = true := by
  induction ts with
  | nil => simp [collectMovements]
  | cons t ts ih =>
      constructor
      · rintro ⟨l, hl⟩
        intro u hu
        cases hft : Movement.from_str t with
        | panic => rw [collect_cons_panic hft] at hl; exact absurd hl (by simp)
        | err e => rw [collect_cons_err hft] at hl; exact absurd hl (by simp)
        | ok m =>
            rcases List.mem_cons.1 hu with rfl | hu'
            · simp [hft, RustResult.isOk]
            · rw [collect_cons_ok hft] at hl
              cases hcs : collectMovements ts with
              | panic => rw [hcs] at hl; exact absurd hl (by simp)
              | err e => rw [hcs] at hl; exact absurd hl (by simp)
              | ok ms => exact (ih.1 ⟨ms, hcs⟩) u hu'
      · intro hall
        have ht := hall t (by simp)
        cases hft : Movement.from_str t with
        | panic => rw [hft] at ht; exact absurd ht (by simp [RustResult.isOk])
        | err e => rw [hft] at ht; exact absurd ht (by simp [RustResult.isOk])
        | ok m =>
            obtain ⟨l, hl⟩ := ih.2 (fun u hu => hall u (by simp [hu]))
            exact ⟨m :: l, by rw [collect_cons_ok hft, hl]⟩

lemma collect_first_err (ts : List (List Nat)) (t : List Nat) (e : ParseMovementError) :
    ts.find? (fun u => !(Movement.from_str u).isOk) = some t →
      Movement.from_str t = RustResult.err e →
      collectMovements ts = RustResult.err e := by
  induction ts with
  | nil => intro hfind _; exact absurd hfind (by simp)
  | cons u ts ih =>
      intro hfind herr
      by_cases hu : (Movement.from_str u).isOk = true
      · rw [List.find?_cons_of_neg _ (by simp [hu])] at hfind
        cases hfu : Movement.from_str u with
        | ok m => rw [collect_cons_ok hfu, ih hfind herr]
        | panic => rw [hfu] at hu; exact absurd hu (by simp [RustResult.isOk])
        | err e' => rw [hfu] at hu; exact absurd hu (by simp [RustResult.isOk])
      · rw [List.find?_cons_of_pos _ (by simp [hu])] at hfind
        have hut : u = t := by simpa using hfind
        subst hut
        cases hfu : Movement.from_str u with
        | err e' =>
            rw [hfu] at herr
            injection herr with he
            subst he
            exact collect_cons_err hfu
        | panic => rw [hfu] at herr; exact absurd herr (by simp)
        | ok m => rw [hfu] at hu; exact absurd (by simp [RustResult.isOk]) hu

/-- C5: the move/turn split index is 2 when the second character is
alphabetic and 1 otherwise (`"Z'"` splits at 1, `"Rw2"` at 2); the empty
string and the malformed tokens `"FF"`, `"2"`, `"u2'"`, `"M'2"` all fail;
scramble parsing succeeds exactly when every whitespace-delimited token
parses, and otherwise returns — with no partial result — the error of the
first failing token. -/
theorem c5_parse_error_handling :
    turnStartIndex (strBytes "Z'") = 1
    ∧ turnStartIndex (strBytes "Rw2") = 2
    ∧ Movement.from_str (strBytes "") = RustResult.err ParseMovementError.empty
    ∧ Movement.from_str (strBytes "FF")
        = RustResult.err (ParseMovementError.badMove (strBytes "FF"))
    ∧ Movement.from_str (strBytes "2")
        = RustResult.err (ParseMovementError.badMove (strBytes "2"))
    ∧ Movement.from_str (strBytes "u2'")
        = RustResult.err (ParseMovementError.badTurn (strBytes "u2'"))
    ∧ Movement.from_str (strBytes "M'2")
        = RustResult.err (ParseMovementError.badTurn (strBytes "M'2"))
    ∧ (∀ bs : List Nat,
        (∃ l, scramble_to_movements bs = RustResult.ok l)
          ↔ ∀ t ∈ splitWhitespaceBytes bs, (Movement.from_str t).isOk = true)
    ∧ (∀ (bs : List Nat) (t : List Nat) (e : ParseMovementError),
        (splitWhitespaceBytes bs).find? (fun u => !(Movement.from_str u).isOk) = some t →
          Movement.from_str t = RustResult.err e →
          scramble_to_movements bs = RustResult.err e) := by
  refine ⟨by decide, by decide, by decide, by decide, by decide, by decide, by decide, ?_, ?_⟩
  · intro bs
    exact collect_ok_iff (splitWhitespaceBytes bs)
  · intro bs t e hfind herr
    exact collect_first_err (splitWhitespaceBytes bs) t e hfind herr

/-- C5 witness: the scramble `"F2 XX D"` fails with the error of its first
failing token `"XX"`. -/
theorem c5_parse_error_handling_witness :
    scramble_to_movements (strBytes "F2 XX D")
      = RustResult.err (ParseMovementError.badMove (strBytes "XX")) :=
  c5_parse_error_handling.2.2.2.2.2.2.2.2 (strBytes "F2 XX D") (strBytes "XX")
    (ParseMovementError.badMove (strBytes "XX")) (by decide) (by decide)

/-- C6: `Sticker::apply_gmove` returns the sticker unchanged when the
predicate rejects its current position; otherwise it rotates the current
position around the move's axis by `turn_magnitude * (1 if clockwise else
-1)` quarter turns; the `initial` field is preserved in both cases. -/
theorem c6_apply_gmove_behavior (st : Sticker) (g : GMove) :
    (g.predicate st.current = false → Sticker.apply_gmove st g = st)
    ∧ (g.predicate st.current = true →
        Sticker.apply_gmove st g
          = Sticker.mk st.initial
              (Vec3.rotate_around_axis st.current g.axis
                (g.movement.turn.toInt * (if g.is_clockwise then 1 else -1))))
    ∧ (Sticker.apply_gmove st g).initial = st.initial := by
  refine ⟨?_, ?_, apply_gmove_initial st g⟩
  · intro hp
    unfold Sticker.apply_gmove
    rw [hp]
    rfl
  · intro hp
    unfold Sticker.apply_gmove
    rw [hp]
    cases hc : g.is_clockwise <;> simp [hc, mul_one, mul_neg_one]

/-- C6 witness: a concrete affected sticker (the RU sticker under a wide U
move, from the source's own test). -/
theorem c6_apply_gmove_behavior_witness :
    (GMove.mk (Movement.mk Move.Uw Turn.Single) Axis.Y true
        (fun p => decide (p.y ≥ 0))).predicate (Vec3.mk 3 2 0) = true
    ∧ Sticker.apply_gmove (Sticker.mk (Vec3.mk 3 2 0) (Vec3.mk 3 2 0))
        (GMove.mk (Movement.mk Move.Uw Turn.Single) Axis.Y true
          (fun p => decide (p.y ≥ 0)))
      = Sticker.mk (Vec3.mk 3 2 0) (Vec3.mk 0 2 3) := by
  refine ⟨by decide, ?_⟩
  rw [(c6_apply_gmove_behavior
      (Sticker.mk (Vec3.mk 3 2 0) (Vec3.mk 3 2 0))
      (GMove.mk (Movement.mk Move.Uw Turn.Single) Axis.Y true
        (fun p => decide (p.y ≥ 0)))).2.1 (by decide)]
  decide

lemma even_onSurf_nonzero {N : Nat} (hN : N % 2 = 0) {p : Point3} (h : OnSurf N p) :
    p.x ≠ 0 ∧ p.y ≠ 0 ∧ p.z ≠ 0 := by
  rcases h with ⟨hf, h1, h2⟩ | ⟨h1, hf, h2⟩ | ⟨h1, h2, hf⟩ <;>
    · obtain ⟨i1, hi1, he1⟩ := inRange_iff.1 h1
      obtain ⟨i2, hi2, he2⟩ := inRange_iff.1 h2
      unfold IsFaceCoord at hf
      omega

lemma reachable_onSurf (N : Nat) (ms : List Movement) :
    ∀ s ∈ ((GCube.new N).apply_movements ms).stickers, OnSurf N s.current := by
  intro s hs
  have h1 : s.current ∈ ((GCube.new N).apply_movements ms).stickers.map Sticker.current :=
    List.mem_map_of_mem _ hs
  have h2 : s.current ∈ ((solvedPos N : List Point3) : Multiset Point3) := by
    rw [← reachable_multiset N ms]
    exact Multiset.mem_coe.2 h1
  exact mem_solvedPos_iff.1 (Multiset.mem_coe.1 h2)

/-- C7: on an even-sized cube, the slice moves E, M, S with any turn affect
no sticker in any reachable state: applying them is the identity. -/
theorem c7_slice_noop_on_even (N : Nat) (hN : N % 2 = 0) (ms : List Movement)
    (m : Move) (t : Turn) (hm : m = Move.E ∨ m = Move.M ∨ m = Move.S) :
    ((GCube.new N).apply_movements ms).apply_movement (Movement.mk m t)
      = (GCube.new N).apply_movements ms := by
  set c := (GCube.new N).apply_movements ms with hc
  have hsz : c.size = N := size_reachable N ms
  have hmem := reachable_onSurf N ms
  rw [← hc] at hmem
  show c.apply_movement (Movement.mk m t) = c
  unfold GCube.apply_movement GCube.apply_gmoves
  rw [List.foldl_cons, List.foldl_nil]
  unfold GCube.apply_gmove
  have hstick : c.stickers.map
      (fun s => Sticker.apply_gmove s (GCube.create_gmove c.size (Movement.mk m t)))
        = c.stickers := by
    conv_rhs => rw [← List.map_id c.stickers]
    apply List.map_congr_left
    intro s hs
    have h0 := even_onSurf_nonzero hN (hmem s hs)
    rw [hsz]
    unfold Sticker.apply_gmove
    rcases hm with rfl | rfl | rfl <;>
      simp [GCube.create_gmove, h0.1, h0.2.1, h0.2.2]
  rw [hstick]

/-- C7 witness: on the scrambled size-2 cube, an E slice move is the
identity. -/
theorem c7_slice_noop_on_even_witness :
    ((GCube.new 2).apply_movements [Movement.mk Move.R Turn.Single]).apply_movement
        (Movement.mk Move.E Turn.Single)
      = (GCube.new 2).apply_movements [Movement.mk Move.R Turn.Single] :=
  c7_slice_noop_on_even 2 (by decide) [Movement.mk Move.R Turn.Single] Move.E Turn.Single
    (Or.inl rfl)

lemma get_face_size_eq (c d : GCube) (h : c.size = d.size) (pos : Point3) :
    c.get_face pos = d.get_face pos := by
  unfold GCube.get_face
  rw [h]

lemma apply_movement_eq_movements (c : GCube) (mv : Movement) :
    c.apply_movement mv = c.apply_movements [mv] := rfl

lemma apply_movements_append (c : GCube) (ms ms' : List Movement) :
    c.apply_movements (ms ++ ms') = (c.apply_movements ms).apply_movements ms' := by
  unfold GCube.apply_movements GCube.create_gmoves GCube.apply_gmoves
  rw [List.map_append, List.foldl_append,
    show (List.foldl GCube.apply_gmove c (List.map (GCube.create_gmove c.size) ms)).size
        = c.size from size_apply_gmoves c _]

lemma reachable_countP (ms : List Movement) (p : Point3 → Bool) :
    ((GCube.new 3).apply_movements ms).stickers.countP (fun s => p s.current)
      = (solvedPos 3).countP p := by
  have h1 : ((GCube.new 3).apply_movements ms).stickers.countP (fun s => p s.current)
      = (((GCube.new 3).apply_movements ms).stickers.map Sticker.current).countP p := by
    rw [List.countP_map]
    rfl
  rw [h1]
  have h2 : ((((GCube.new 3).apply_movements ms).stickers.map Sticker.current
        : List Point3) : Multiset Point3).countP (fun q => p q = true)
      = (((solvedPos 3) : List Point3) : Multiset Point3).countP (fun q => p q = true) := by
    rw [reachable_multiset 3 ms]
  simpa [Multiset.coe_countP] using h2

lemma collectBlocks_isSome (c : GCube) (fs : List Face)
    (h : ∀ f ∈ fs, (c.faceBlock f).isSome = true) :
    (c.collectBlocks fs).isSome = true := by
  induction fs with
  | nil => rfl
  | cons f fs ih =>
      unfold GCube.collectBlocks
      cases hfb : c.faceBlock f with
      | none =>
          have hf := h f (by simp)
          rw [hfb] at hf
          exact absurd hf (by simp)
      | some b =>
          cases hcb : c.collectBlocks fs with
          | none =>
              have := ih (fun f' hf' => h f' (by simp [hf']))
              rw [hcb] at this
              exact absurd this (by simp)
          | some rest => simp

lemma reachable_front_count (ms ms2 : List Movement) :
    (((GCube.new 3).apply_movements ms2).stickers.filter
        (fun s => ((GCube.new 3).apply_movements ms).get_face s.current == Face.F)).length
      = 9 := by
  rw [← List.countP_eq_length_filter]
  have hgf : ∀ pos, ((GCube.new 3).apply_movements ms).get_face pos
      = (GCube.new 3).get_face pos :=
    get_face_size_eq _ _ (size_reachable 3 ms)
  simp only [hgf]
  rw [reachable_countP ms2 (fun q => (GCube.new 3).get_face q == Face.F)]
  decide

lemma reachable_faceBlock_isSome (ms : List Movement) (f : Face) :
    (((GCube.new 3).apply_movements ms).faceBlock f).isSome = true := by
  unfold GCube.faceBlock
  cases f <;>
    simp only [apply_movement_eq_movements, ← apply_movements_append] <;>
    rw [reachable_front_count] <;>
    rfl

/-- C9: in every reachable state of the size-3 cube, each of the six faces
carries exactly 9 stickers, no current position is interior (`get_face`
never returns the sentinel `Face::X`), and the facelet projection's
9-element conversions never fail. -/
theorem c9_projection_safety (ms : List Movement) :
    (∀ f ∈ ORDERED_FACES,
        ((GCube.new 3).apply_movements ms).stickers.countP
          (fun s => ((GCube.new 3).apply_movements ms).get_face s.current == f) = 9)
    ∧ (∀ s ∈ ((GCube.new 3).apply_movements ms).stickers,
        ((GCube.new 3).apply_movements ms).get_face s.current ≠ Face.X)
    ∧ (((GCube.new 3).apply_movements ms).to_facelet_model).isSome = true := by
  have hgf : ∀ pos, ((GCube.new 3).apply_movements ms).get_face pos
      = (GCube.new 3).get_face pos :=
    get_face_size_eq _ _ (size_reachable 3 ms)
  refine ⟨?_, ?_, ?_⟩
  · intro f hf
    simp only [hgf]
    rw [reachable_countP ms (fun q => (GCube.new 3).get_face q == f)]
    fin_cases hf <;> decide
  · intro s hs
    have hsurf := reachable_onSurf 3 ms s hs
    rw [hgf]
    intro hX
    simp only [GCube.get_face] at hX
    have hred : (GCube.new 3).size = 3 := rfl
    rw [hred] at hX
    split_ifs at hX with h1 h2 h3 h4 h5 h6 <;>
      first
        | exact Face.noConfusion hX
        | (rcases hsurf with ⟨hf, ha, hb⟩ | ⟨ha, hf, hb⟩ | ⟨ha, hb, hf⟩ <;>
            · obtain ⟨i1, hi1, he1⟩ := inRange_iff.1 ha
              obtain ⟨i2, hi2, he2⟩ := inRange_iff.1 hb
              unfold IsFaceCoord at hf
              push_cast at h1 h2 h3 h4 h5 h6 hf he1 he2
              omega)
  · exact collectBlocks_isSome _ _ (fun f _ => reachable_faceBlock_isSome ms f)

/-- C8: after any sequence of moves, `grow` and `shrink` rebuild the cube
at size N+1 and N-1 (flooring at 1) in the solved state; in particular the
facelet layout of a resized previously-scrambled cube is the solved layout
at the new size. -/
theorem c8_resize_resets :
    (∀ (N : Nat) (ms : List Movement),
        ((GCube.new N).apply_movements ms).grow = GCube.new (N + 1)
        ∧ ((GCube.new N).apply_movements ms).shrink = GCube.new (max 1 (N - 1)))
    ∧ ((GCube.new 2).apply_movements
          [Movement.mk Move.R Turn.Single,
           Movement.mk Move.U Turn.Inverse]).grow.to_facelet_model
        = some (FaceletModel.new 3)
    ∧ ((GCube.new 4).apply_movements
          [Movement.mk Move.Rw Turn.Single,
           Movement.mk Move.U Turn.Single]).shrink.to_facelet_model
        = some (FaceletModel.new 3) := by
  refine ⟨fun N ms => ?_, by decide, by decide⟩
  unfold GCube.grow GCube.shrink
  rw [size_reachable]
  exact ⟨rfl, rfl⟩

/-- C10 counterexample: `Movement::from_str` panics on the non-ASCII
input `"é"`, whose second byte is a UTF-8 continuation byte, so it is not
total. -/
theorem c10_from_str_panics_on_non_ascii :
    Movement.from_str (strBytes "é") = RustResult.panic := by
  decide

lemma turnStartIndex_pos_le (bs : List Nat) (h : bs ≠ []) :
    0 < turnStartIndex bs ∧ turnStartIndex bs ≤ bs.length := by
  have hpos : 0 < bs.length := List.length_pos.2 h
  unfold turnStartIndex
  split
  · rename_i hcond
    have h1 : bs.length > 1 := by
      rw [Bool.and_eq_true] at hcond
      exact of_decide_eq_true hcond.1
    omega
  · omega

/-- C10 (amended): for every input string made of ASCII characters only,
`Movement::from_str` returns `Ok` or a parse error and never panics at the
byte-index slicing. -/
theorem c10_from_str_total_on_ascii (s : String)
    (h : ∀ ch ∈ s.data, ch.toNat < 128) :
    Movement.from_str (strBytes s) ≠ RustResult.panic := by
  have hb : ∀ b ∈ strBytes s, b < 128 := by
    intro b hbmem
    rcases List.mem_flatMap.1 hbmem with ⟨ch, hch, hbch⟩
    have hc := h ch hch
    unfold utf8Bytes at hbch
    rw [if_pos hc] at hbch
    have hbe : b = ch.toNat := by simpa using hbch
    omega
  unfold Movement.from_str
  split
  · intro hcontra
    exact RustResult.noConfusion hcontra
  · rename_i hne
    obtain ⟨hip, hile⟩ := turnStartIndex_pos_le (strBytes s) hne
    have hbound : isCharBoundary (strBytes s) (turnStartIndex (strBytes s)) = true := by
      unfold isCharBoundary
      rw [if_neg (by omega)]
      cases hget : (strBytes s).get? (turnStartIndex (strBytes s)) with
      | some b =>
          have hblt : b < 128 := hb b (List.get?_mem hget)
          simp [hblt]
      | none =>
          have hlen : (strBytes s).length ≤ turnStartIndex (strBytes s) :=
            List.get?_eq_none.1 hget
          simp only [decide_eq_true_eq]
          omega
    simp only [hbound, if_true]
    cases hmv : moveFromBytes ((strBytes s).take (turnStartIndex (strBytes s))) with
    | none => simp
    | some mv =>
        cases htv : turnFromBytes ((strBytes s).drop (turnStartIndex (strBytes s))) with
        | none => simp
        | some t => simp

/-- C10 witness for the amended theorem at the ASCII input `"R2"`. -/
theorem c10_from_str_total_on_ascii_witness :
    (∀ ch ∈ ("R2" : String).data, ch.toNat < 128)
    ∧ Movement.from_str (strBytes "R2") ≠ RustResult.panic :=
  ⟨by decide, c10_from_str_total_on_ascii "R2" (by decide)⟩

end Cubedesu
